import Mathlib

/-!
Verification of the tiny-systems all-in-one module components against their
specification.  The Go sources under `components/common` (Scheduler, Router,
Mixer) and `components/http` (HTTP Server) are shallowly embedded below:
time instants and durations are integers (nanoseconds for the Scheduler,
seconds for the HTTP server timeouts), the concurrent maps are association
lists, timers are entries carrying an identity token and a remaining
duration, and the handler callback is abstracted by its outcome.
-/

deriving instance DecidableEq for Except

namespace TinySystems

/- ════════════════════════════════════════════════════════════════════
   Scheduler (components/common/scheduler.go)
   ════════════════════════════════════════════════════════════════════ -/

/-- Task from scheduler.go: id, dateTime (nanoseconds since epoch), schedule flag. -/
structure Task where
  id : String
  dateTime : Int
  schedule : Bool
deriving DecidableEq, Repr

/-- SchedulerSettings from scheduler.go. -/
structure SchedulerSettings where
  enableAckPort : Bool
deriving DecidableEq, Repr

/-- SchedulerInMessage from scheduler.go; the context is an arbitrary value
(`any` in Go), embedded as a type parameter. -/
structure SchedulerInMessage (Ctx : Type) where
  context : Ctx
  task : Task
deriving DecidableEq, Repr

/-- SchedulerOutMessage from scheduler.go. -/
structure SchedulerOutMessage (Ctx : Type) where
  task : Task
  context : Ctx
deriving DecidableEq, Repr

/-- SchedulerTaskAck from scheduler.go. -/
structure SchedulerTaskAck (Ctx : Type) where
  task : Task
  context : Ctx
  scheduledIn : Int
deriving DecidableEq, Repr

/-- The private `task` struct of scheduler.go: a map entry holding the
one-shot timer (identified here by a token, with its remaining duration in
nanoseconds) and the emission closure `call`.  In the Go code `call`
captures the submitted task and context, so it is embedded by those two
captured values. -/
structure SchedEntry (Ctx : Type) where
  timerId : Nat
  duration : Int
  callTask : Task
  callContext : Ctx
deriving DecidableEq, Repr

/-- The Scheduler's mutable state: the concurrent map `tasks` (an
association list keyed by task id) plus a counter producing fresh timer
identities for `time.NewTimer`. -/
structure SchedulerState (Ctx : Type) where
  tasks : List (String × SchedEntry Ctx)
  nextTimerId : Nat
deriving DecidableEq, Repr

/-- The fresh state produced by `Scheduler.Instance`: an empty task map. -/
def schedulerInit (Ctx : Type) : SchedulerState Ctx := ⟨[], 0⟩

/-- `s.tasks.Get(id)` on the association list. -/
def lookupTask {Ctx : Type} : List (String × SchedEntry Ctx) → String → Option (SchedEntry Ctx)
  | [], _ => none
  | (k, e) :: rest, id => if k = id then some e else lookupTask rest id

/-- `s.tasks.Remove(id)` on the association list. -/
def removeTask {Ctx : Type} : List (String × SchedEntry Ctx) → String → List (String × SchedEntry Ctx)
  | [], _ => []
  | (k, e) :: rest, id => if k = id then removeTask rest id else (k, e) :: removeTask rest id

/-- In-place mutation of the entry stored under `id` (the Go code mutates the
entry through the pointer obtained from `Get`). -/
def updateTask {Ctx : Type} : List (String × SchedEntry Ctx) → String → SchedEntry Ctx → List (String × SchedEntry Ctx)
  | [], _, _ => []
  | (k, e0) :: rest, id, e => if k = id then (k, e) :: rest else (k, e0) :: updateTask rest id e

/-- Scheduler.addOrUpdateTask (scheduler.go:130-151).  If an entry exists:
stop its timer, then either reset it to the new duration (`start = true`) or
remove the entry.  Note that on the reset path only the timer is touched —
the stored `call` closure is left as it was.  If no entry exists and
`start = true`, a fresh timer is created and the entry stored. -/
def addOrUpdateTask {Ctx : Type} (st : SchedulerState Ctx) (id : String) (start : Bool)
    (duration : Int) (callTask : Task) (callContext : Ctx) : SchedulerState Ctx :=
  match lookupTask st.tasks id with
  | some e =>
    if start then
      { st with tasks := updateTask st.tasks id { e with duration := duration } }
    else
      { st with tasks := removeTask st.tasks id }
  | none =>
    if start then
      { st with
        tasks := st.tasks ++ [(id, ⟨st.nextTimerId, duration, callTask, callContext⟩)],
        nextTimerId := st.nextTimerId + 1 }
    else st

/-- Emissions a Scheduler produces through its handler callback. -/
inductive SchedEmission (Ctx : Type) where
  | ack (a : SchedulerTaskAck Ctx)
  | out (o : SchedulerOutMessage Ctx)
deriving DecidableEq, Repr

/-- Nanoseconds in a second (`time.Duration` resolution). -/
def nsPerSecond : Int := 1000000000

/-- Go's `int64(d.Seconds())` for a duration of `d` nanoseconds: the float
seconds value is converted with truncation toward zero. -/
def goSecondsTrunc (d : Int) : Int := Int.tdiv d nsPerSecond

/-- Scheduler.Handle on the `in` port with a well-typed SchedulerInMessage
(scheduler.go:82-128).  `ackResult` is the outcome of the handler invocation
on the `ack` port (consulted only when acks are enabled).  Returns the
result of Handle, the new state, and the emissions made during the call. -/
def schedulerHandle {Ctx : Type} (settings : SchedulerSettings) (ackResult : Except String Unit)
    (now : Int) (st : SchedulerState Ctx) (m : SchedulerInMessage Ctx) :
    Except String Unit × SchedulerState Ctx × List (SchedEmission Ctx) :=
  let t := m.task
  let scheduledIn : Int := if t.schedule then goSecondsTrunc (t.dateTime - now) else 0
  if settings.enableAckPort then
    match ackResult with
    | .error e => (.error e, st, [.ack ⟨t, m.context, scheduledIn⟩])
    | .ok _ =>
      (.ok (), addOrUpdateTask st t.id t.schedule (t.dateTime - now) t m.context,
        [.ack ⟨t, m.context, scheduledIn⟩])
  else
    (.ok (), addOrUpdateTask st t.id t.schedule (t.dateTime - now) t m.context, [])

/-- Scheduler.waitTask firing (scheduler.go:153-160): when the timer of the
entry stored under `id` elapses, the entry is removed and its `call` closure
invoked, emitting the stored payload on the `out` port. -/
def fireTask {Ctx : Type} (st : SchedulerState Ctx) (id : String) :
    SchedulerState Ctx × List (SchedEmission Ctx) :=
  match lookupTask st.tasks id with
  | some e => ({ st with tasks := removeTask st.tasks id }, [.out ⟨e.callTask, e.callContext⟩])
  | none => (st, [])

/-- One observable scheduler event: a Handle call on the `in` port or a timer
firing. -/
inductive SchedOp (Ctx : Type) where
  | input (settings : SchedulerSettings) (ackResult : Except String Unit)
      (now : Int) (m : SchedulerInMessage Ctx)
  | fire (id : String)

/-- State transition of one scheduler event. -/
def schedStep {Ctx : Type} (st : SchedulerState Ctx) : SchedOp Ctx → SchedulerState Ctx
  | .input s ar now m => (schedulerHandle s ar now st m).2.1
  | .fire id => (fireTask st id).1

/-- The scheduler state after a sequence of events starting from a fresh
instance. -/
def schedRun {Ctx : Type} (ops : List (SchedOp Ctx)) : SchedulerState Ctx :=
  ops.foldl schedStep (schedulerInit Ctx)

/-- The ids of the pending task set. -/
def schedKeys {Ctx : Type} (st : SchedulerState Ctx) : List String :=
  st.tasks.map Prod.fst

/-- The identities of the active timers, one per pending entry. -/
def schedTimerIds {Ctx : Type} (st : SchedulerState Ctx) : List Nat :=
  st.tasks.map (fun p => p.2.timerId)

/- ════════════════════════════════════════════════════════════════════
   Router (components/common/router.go)
   ════════════════════════════════════════════════════════════════════ -/

/-- Go's `strings.ToLower` restricted to the ASCII range (the only range the
spec and claims exercise), acting character-wise on the string's data. -/
def strToLower (s : String) : String := ⟨s.data.map Char.toLower⟩

/-- Go's `strings.ToTitle` restricted to the ASCII range, where title case
coincides with upper case, acting character-wise on the string's data. -/
def strToTitle (s : String) : String := ⟨s.data.map Char.toUpper⟩

/-- Condition from router.go; `RouteName` is embedded by its underlying
string value. -/
structure Condition where
  route : String
  condition : Bool
deriving DecidableEq, Repr

/-- RouterSettings from router.go. -/
structure RouterSettings where
  routes : List String
  enableDefaultPort : Bool
deriving DecidableEq, Repr

/-- RouterInMessage from router.go, context embedded as a type parameter. -/
structure RouterInMessage (Ctx : Type) where
  context : Ctx
  conditions : List Condition
deriving DecidableEq, Repr

/-- RouterOutMessage from router.go. -/
structure RouterOutMessage (Ctx : Type) where
  route : String
  context : Ctx
deriving DecidableEq, Repr

/-- getPortNameFromRoute (router.go:180-182): `fmt.Sprintf("out_%s", strings.ToLower(route))`. -/
def getPortNameFromRoute (route : String) : String := "out_" ++ strToLower route

/-- RouterDefaultPort constant from router.go. -/
def routerDefaultPortName : String := "default"

/-- RouterInPort constant from router.go. -/
def routerInPortName : String := "input"

/-- Modelled from the spec: the reserved port identifier `module.SettingsPort`
of the external `tiny-systems/module` package (not part of this repository);
the spec's reserved port names list gives `settings`. -/
def settingsPortName : String := "settings"

/-- The loop of Router.Handle (router.go:109-116): scan the conditions in
order and return the emission of the first one whose condition is true. -/
def routerEmit {Ctx : Type} (ctx : Ctx) : List Condition → Option (String × RouterOutMessage Ctx)
  | [] => none
  | c :: rest =>
    if c.condition then some (getPortNameFromRoute c.route, ⟨c.route, ctx⟩)
    else routerEmit ctx rest

/-- Router.Handle on the input port with a well-typed RouterInMessage
(router.go:94-124).  `hres` is the outcome of a handler invocation; the
function returns the result of Handle together with the list of emissions
made (at most one). -/
def routerHandle {Ctx : Type} (hres : String → RouterOutMessage Ctx → Except String Unit)
    (s : RouterSettings) (m : RouterInMessage Ctx) :
    Except String Unit × List (String × RouterOutMessage Ctx) :=
  match routerEmit m.context m.conditions with
  | some (p, out) => (hres p out, [(p, out)])
  | none =>
    if s.enableDefaultPort then
      (hres routerDefaultPortName ⟨routerDefaultPortName, m.context⟩,
        [(routerDefaultPortName, ⟨routerDefaultPortName, m.context⟩)])
    else (.ok (), [])

/-- The names of the ports Router.Ports returns (router.go:127-178):
settings, input, one `out_<lower(route)>` per configured route, and
`default` when the default port is enabled. -/
def routerPortNames (s : RouterSettings) : List String :=
  [settingsPortName, routerInPortName] ++ s.routes.map getPortNameFromRoute ++
    (if s.enableDefaultPort then [routerDefaultPortName] else [])

/- ════════════════════════════════════════════════════════════════════
   Mixer (components/common/mixer.go)
   ════════════════════════════════════════════════════════════════════ -/

/-- MixerSettings from mixer.go. -/
structure MixerSettings where
  inputs : List String
deriving DecidableEq, Repr

/-- The Mixer's mutable state: its settings and the concurrent map
`inputs` from property name to the latest context seen. -/
structure MixerState (Ctx : Type) where
  settings : MixerSettings
  inputsMap : List (String × Ctx)
deriving DecidableEq, Repr

/-- getPropName (mixer.go:206-208): `fmt.Sprintf("context%s", strings.ToTitle(input))`. -/
def getPropName (input : String) : String := "context" ++ strToTitle input

/-- Mixer.hasInput (mixer.go:153-160): linear scan of the configured inputs. -/
def hasInput : List String → String → Bool
  | [], _ => false
  | i :: rest, name => if i = name then true else hasInput rest name

/-- Map lookup on the Mixer's context map. -/
def lookupMap {Ctx : Type} : List (String × Ctx) → String → Option Ctx
  | [], _ => none
  | (k, v) :: rest, key => if k = key then some v else lookupMap rest key

/-- `cmap.Set` on the Mixer's context map: replace the entry if the key is
present, append it otherwise. -/
def setMapEntry {Ctx : Type} : List (String × Ctx) → String → Ctx → List (String × Ctx)
  | [], k, v => [(k, v)]
  | (k0, v0) :: rest, k, v =>
    if k0 = k then (k0, v) :: rest else (k0, v0) :: setMapEntry rest k v

/-- A message deliverable to the Mixer: a settings payload or an input
payload (the context field of a MixerInput). -/
inductive MixerMsg (Ctx : Type) where
  | settings (s : MixerSettings)
  | input (context : Ctx)
deriving DecidableEq, Repr

/-- Mixer.Handle (mixer.go:121-151).  On the settings port the settings are
replaced and the map cleared; on a configured input port the context is
stored under `getPropName port` and the whole map is emitted on `output`;
any other port is an error.  Returns the new state and the emitted record,
if any. -/
def mixerHandle {Ctx : Type} (st : MixerState Ctx) (port : String) (msg : MixerMsg Ctx) :
    Except String (MixerState Ctx × Option (List (String × Ctx))) :=
  if port = settingsPortName then
    match msg with
    | .settings s => .ok (⟨s, []⟩, none)
    | _ => .error "invalid settings"
  else if hasInput st.settings.inputs port then
    match msg with
    | .input c =>
      let m2 := setMapEntry st.inputsMap (getPropName port) c
      .ok ({ st with inputsMap := m2 }, some m2)
    | _ => .error "invalid message type"
  else .error ("unknown port: " ++ port)

/-- One observable mixer event: a Handle call with a port and payload. -/
inductive MixerOp (Ctx : Type) where
  | deliver (port : String) (msg : MixerMsg Ctx)

/-- State transition of one mixer event (a failing Handle leaves the state
unchanged). -/
def mixerStep {Ctx : Type} (st : MixerState Ctx) : MixerOp Ctx → MixerState Ctx
  | .deliver port msg =>
    match mixerHandle st port msg with
    | .ok (st2, _) => st2
    | .error _ => st

/-- The fresh state produced by Mixer.Instance (mixer.go:195-200): inputs
`A` and `B`, empty context map. -/
def mixerInstanceState (Ctx : Type) : MixerState Ctx := ⟨⟨["A", "B"]⟩, []⟩

/-- The mixer state after a sequence of Handle calls starting from a fresh
instance. -/
def mixerRun {Ctx : Type} (ops : List (MixerOp Ctx)) : MixerState Ctx :=
  ops.foldl mixerStep (mixerInstanceState Ctx)

/-- The Mixer's map only holds keys derived from its currently configured
inputs. -/
def MixerMapInv {Ctx : Type} (st : MixerState Ctx) : Prop :=
  ∀ k ∈ st.inputsMap.map Prod.fst,
    ∃ i, hasInput st.settings.inputs i = true ∧ k = getPropName i

/- ════════════════════════════════════════════════════════════════════
   HTTP Server (components/http/server.go)
   ════════════════════════════════════════════════════════════════════ -/

/-- Modelled from the spec: the TTL map of `pkg/ttlmap` (the spec's
`Pending map`, "a time-to-live map keyed by id" whose entries "have a
time-based expiry"); its source is referenced by server.go but is not under
src/.  `ttl` is the per-entry lifetime in seconds fixed at construction;
entries record their expiry instant. -/
structure TTLMap (V : Type) where
  ttl : Int
  entries : List (String × V × Int)
deriving DecidableEq, Repr

/-- Lookup of the raw entry (value and expiry) stored under a key. -/
def ttlFind {V : Type} : List (String × V × Int) → String → Option (V × Int)
  | [], _ => none
  | (k, v, exp) :: rest, key => if k = key then some (v, exp) else ttlFind rest key

/-- Modelled from the spec: `ttlmap.New(ctx, ttl)` — an empty map whose
future entries live `ttl` seconds. -/
def TTLMap.new (V : Type) (ttl : Int) : TTLMap V := ⟨ttl, []⟩

/-- Replace-or-append of an entry in the TTL map's backing list. -/
def ttlSet {V : Type} : List (String × V × Int) → String → V → Int → List (String × V × Int)
  | [], k, v, exp => [(k, v, exp)]
  | (k0, v0, e0) :: rest, k, v, exp =>
    if k0 = k then (k0, v, exp) :: rest else (k0, v0, e0) :: ttlSet rest k v exp

/-- Modelled from the spec: `TTLMap.Put(k, v)` at instant `now` — the entry
is stored with `expiresAt = now + ttl`. -/
def TTLMap.put {V : Type} (m : TTLMap V) (now : Int) (k : String) (v : V) : TTLMap V :=
  { m with entries := ttlSet m.entries k v (now + m.ttl) }

/-- Modelled from the spec: `TTLMap.Get(k)` at instant `now` — returns the
stored value while the entry is unexpired, and nothing once the expiry
instant has been reached. -/
def TTLMap.get {V : Type} (m : TTLMap V) (now : Int) (k : String) : Option V :=
  match ttlFind m.entries k with
  | some (v, exp) => if now < exp then some v else none
  | none => none

/-- The pending map created by Server.start (server.go:229):
`ttlmap.New(ctx, msg.ReadTimeout*2)`. -/
def serverStartContexts (V : Type) (readTimeout : Int) : TTLMap V :=
  TTLMap.new V (readTimeout * 2)

/-- The insertion performed for each inbound request (server.go:295-296):
`h.contexts.Put(idStr, ch)`, where `ch` is the request's response channel. -/
def serverInsertPending {V : Type} (m : TTLMap V) (now : Int) (id : String) (ch : V) : TTLMap V :=
  m.put now id ch

/-- The effect of the read-timeout branch of the request goroutine
(server.go:311-313) on the pending map: the goroutine writes the timeout
error to the HTTP client and returns, performing no pending-map operation. -/
def serverRequestTimeout {V : Type} (m : TTLMap V) : TTLMap V := m

/-- ServerResponse from server.go, with the body embedded as a type
parameter; only the fields the response-routing path inspects are kept. -/
structure ServerResponseMsg (B : Type) where
  requestID : String
  statusCode : Int
  body : B
deriving DecidableEq, Repr

/-- The `response` port branch of Server.Handle (server.go:480-497): no map
yet (the server never started) or an absent/expired id fail; otherwise the
payload is sent on the entry's channel and Handle returns nil.  A result of
`ok (ch, resp)` embeds `respChannel <- in`: the payload `resp` forwarded on
the channel `ch`. -/
def serverHandleResponse {V B : Type} (contexts : Option (TTLMap V)) (now : Int)
    (resp : ServerResponseMsg B) : Except String (V × ServerResponseMsg B) :=
  match contexts with
  | none => .error ("unknown request ID " ++ resp.requestID)
  | some m =>
    match m.get now resp.requestID with
    | none => .error ("context '" ++ resp.requestID ++ "' not found")
    | some ch => .ok (ch, resp)

/-- The Server state the `stop` path observes: whether a cancel function is
installed (the server is running), whether a cancellation has been
requested, and the pending map. -/
structure HServerState (V : Type) where
  cancelFuncSet : Bool
  stopRequested : Bool
  contexts : Option (TTLMap V)
deriving DecidableEq, Repr

/-- Server.stop (server.go:183-192): with no cancel function installed it
returns nil immediately; otherwise it invokes the cancel function (modelled
as recording the stop request) and returns nil. -/
def serverStop {V : Type} (st : HServerState V) : HServerState V × Option String :=
  if st.cancelFuncSet then ({ st with stopRequested := true }, none) else (st, none)

/-- The `stop` port branch of Server.Handle (server.go:477-478):
`return h.stop()`. -/
def serverHandleStop {V : Type} (st : HServerState V) : HServerState V × Option String :=
  serverStop st

/- ════════════════════════════════════════════════════════════════════
   Scheduler lemmas
   ════════════════════════════════════════════════════════════════════ -/

theorem lookupTask_none_not_mem {Ctx : Type} (ts : List (String × SchedEntry Ctx)) (id : String)
    (h : lookupTask ts id = none) : id ∉ ts.map Prod.fst := by
  induction ts with
  | nil => simp
  | cons p rest ih =>
    obtain ⟨k, e⟩ := p
    by_cases hk : k = id
    · simp [lookupTask, hk] at h
    · simp only [lookupTask, if_neg hk] at h
      simp only [List.map_cons, List.mem_cons]
      rintro (rfl | hmem)
      · exact hk rfl
      · exact ih h hmem

theorem removeTask_sublist {Ctx : Type} (ts : List (String × SchedEntry Ctx)) (id : String) :
    (removeTask ts id).Sublist ts := by
  induction ts with
  | nil => simp [removeTask]
  | cons p rest ih =>
    obtain ⟨k, e⟩ := p
    by_cases hk : k = id
    · simpa [removeTask, hk] using ih.cons (k, e)
    · simpa [removeTask, hk] using ih.cons₂ (k, e)

theorem updateTask_map_fst {Ctx : Type} (ts : List (String × SchedEntry Ctx)) (id : String)
    (e : SchedEntry Ctx) : (updateTask ts id e).map Prod.fst = ts.map Prod.fst := by
  induction ts with
  | nil => simp [updateTask]
  | cons p rest ih =>
    obtain ⟨k, e0⟩ := p
    by_cases hk : k = id
    · simp [updateTask, hk]
    · simp [updateTask, hk, ih]

theorem updateTask_map_timerId {Ctx : Type} (ts : List (String × SchedEntry Ctx)) (id : String)
    (e e0 : SchedEntry Ctx) (hl : lookupTask ts id = some e0) (he : e.timerId = e0.timerId) :
    (updateTask ts id e).map (fun p => p.2.timerId) = ts.map (fun p => p.2.timerId) := by
  induction ts with
  | nil => simp [lookupTask] at hl
  | cons p rest ih =>
    obtain ⟨k, e1⟩ := p
    by_cases hk : k = id
    · simp only [lookupTask, if_pos hk] at hl
      obtain rfl : e1 = e0 := by injection hl
      simp [updateTask, hk, he]
    · simp only [lookupTask, if_neg hk] at hl
      simp [updateTask, hk, ih hl]

theorem addOrUpdateTask_keys_nodup {Ctx : Type} (st : SchedulerState Ctx) (id : String)
    (start : Bool) (dur : Int) (ct : Task) (cc : Ctx) (h : (schedKeys st).Nodup) :
    (schedKeys (addOrUpdateTask st id start dur ct cc)).Nodup := by
  unfold addOrUpdateTask
  cases hl : lookupTask st.tasks id with
  | some e =>
    cases start with
    | true => simpa [schedKeys, updateTask_map_fst] using h
    | false =>
      exact List.Nodup.sublist (List.Sublist.map _ (removeTask_sublist st.tasks id)) h
  | none =>
    cases start with
    | true =>
      have hid := lookupTask_none_not_mem st.tasks id hl
      simp only [schedKeys, List.map_append, List.map_cons, List.map_nil] at *
      simp [List.nodup_append, h, hid]
    | false => exact h

theorem fireTask_keys_nodup {Ctx : Type} (st : SchedulerState Ctx) (id : String)
    (h : (schedKeys st).Nodup) : (schedKeys (fireTask st id).1).Nodup := by
  unfold fireTask
  cases hl : lookupTask st.tasks id with
  | some e =>
    exact List.Nodup.sublist (List.Sublist.map _ (removeTask_sublist st.tasks id)) h
  | none => exact h

theorem schedStep_keys_nodup {Ctx : Type} (st : SchedulerState Ctx) (op : SchedOp Ctx)
    (h : (schedKeys st).Nodup) : (schedKeys (schedStep st op)).Nodup := by
  cases op with
  | input s ar now m =>
    cases hs : s.enableAckPort <;> cases ar <;>
      simp only [schedStep, schedulerHandle, hs, if_true, if_false, Bool.false_eq_true] <;>
      first
        | exact h
        | exact addOrUpdateTask_keys_nodup st m.task.id m.task.schedule _ m.task m.context h
  | fire id => exact fireTask_keys_nodup st id h

theorem schedRun_keys_nodup_aux {Ctx : Type} (ops : List (SchedOp Ctx)) (st : SchedulerState Ctx)
    (h : (schedKeys st).Nodup) : (schedKeys (ops.foldl schedStep st)).Nodup := by
  induction ops generalizing st with
  | nil => exact h
  | cons op rest ih => exact ih _ (schedStep_keys_nodup st op h)

theorem schedInput_timerIds_of_mem {Ctx : Type} (st : SchedulerState Ctx)
    (s : SchedulerSettings) (ar : Except String Unit) (now : Int) (m : SchedulerInMessage Ctx)
    (e : SchedEntry Ctx) (hl : lookupTask st.tasks m.task.id = some e)
    (hs : m.task.schedule = true) :
    schedTimerIds (schedStep st (.input s ar now m)) = schedTimerIds st := by
  have hupd : schedTimerIds (addOrUpdateTask st m.task.id m.task.schedule
      (m.task.dateTime - now) m.task m.context) = schedTimerIds st := by
    unfold addOrUpdateTask
    rw [hl, hs]
    simp only [if_true, schedTimerIds]
    exact updateTask_map_timerId st.tasks m.task.id _ e hl rfl
  cases hs2 : s.enableAckPort <;> cases ar <;>
    simp only [schedStep, schedulerHandle, hs2, if_true, if_false, Bool.false_eq_true] <;>
    first
      | rfl
      | exact hupd

/- ════════════════════════════════════════════════════════════════════
   Scheduler claims
   ════════════════════════════════════════════════════════════════════ -/

/-- C1: the claim says a re-submission of a pending id with schedule=true
replaces the stored emission payload, so the eventual `out` emission carries
the most recently submitted payload.  Evaluating the embedded code at the
failing input — submit (id `x`, dateTime 200ms, context 1), re-submit
(id `x`, dateTime 500ms, context 2), let the timer fire — shows the `out`
emission still carries the first payload: `addOrUpdateTask` resets the
timer of the existing entry but never replaces its stored `call` closure. -/
theorem scheduler_resubmit_fires_first_payload :
    (fireTask (schedStep (schedStep (schedulerInit Nat)
        (.input ⟨false⟩ (.ok ()) 0 ⟨1, ⟨"x", 200000000, true⟩⟩))
        (.input ⟨false⟩ (.ok ()) 0 ⟨2, ⟨"x", 500000000, true⟩⟩)) "x").2 =
      [.out ⟨⟨"x", 200000000, true⟩, 1⟩] ∧
    [SchedEmission.out ⟨⟨"x", 200000000, true⟩, (1 : Nat)⟩] ≠
      [SchedEmission.out ⟨⟨"x", 500000000, true⟩, (2 : Nat)⟩] := by
  decide

/-- C2: after any sequence of Handle(in, ...) calls and timer firings the
pending task set contains at most one entry per task id (its key list has
no duplicates), and a submission for an id that is already pending with
schedule=true leaves the set of active timer identities unchanged — the
existing entry's timer is reused, no second timer is created. -/
theorem scheduler_at_most_one_task_per_id (Ctx : Type) (ops : List (SchedOp Ctx)) :
    (schedKeys (schedRun ops)).Nodup ∧
    ∀ (s : SchedulerSettings) (ar : Except String Unit) (now : Int)
      (m : SchedulerInMessage Ctx) (e : SchedEntry Ctx),
      lookupTask (schedRun ops).tasks m.task.id = some e →
      m.task.schedule = true →
      schedTimerIds (schedStep (schedRun ops) (.input s ar now m)) =
        schedTimerIds (schedRun ops) :=
  ⟨schedRun_keys_nodup_aux ops _ (by simp [schedulerInit, schedKeys]),
   fun s ar now m e hl hs => schedInput_timerIds_of_mem _ s ar now m e hl hs⟩

/-- A concrete scheduler history used to witness C2: one accepted
submission for id `x`. -/
def schedOpsW : List (SchedOp Nat) := [.input ⟨true⟩ (.ok ()) 0 ⟨7, ⟨"x", 10, true⟩⟩]

/-- Witness for C2 at a concrete input: re-submitting id `x` does not
change the set of active timer identities. -/
theorem scheduler_at_most_one_task_per_id_witness :
    schedTimerIds (schedStep (schedRun schedOpsW) (.input ⟨true⟩ (.ok ()) 0 ⟨8, ⟨"x", 99, true⟩⟩)) =
      schedTimerIds (schedRun schedOpsW) :=
  (scheduler_at_most_one_task_per_id Nat schedOpsW).2 ⟨true⟩ (.ok ()) 0 ⟨8, ⟨"x", 99, true⟩⟩
    ⟨0, 10, ⟨"x", 10, true⟩, 7⟩ (by decide) rfl

/-- The spec's reading of the ack's scheduledIn field: the floor of the
difference dateTime - now in seconds. -/
def specScheduledInFloor (dateTime now : Int) : Int := Int.fdiv (dateTime - now) nsPerSecond

/-- C5 counterexample: the claim says every Handle(in, m) with acks enabled
emits scheduledIn = floor(dateTime - now) in seconds.  At dateTime - now =
-1.5s with schedule=true the code emits -1 (Go's int64 conversion truncates
toward zero) while the floor is -2; and with schedule=false the code always
emits 0 regardless of dateTime (+5s here, whose floor is 5). -/
theorem scheduler_ack_floor_counterexample :
    (schedulerHandle ⟨true⟩ (.ok ()) 0 (schedulerInit Nat) ⟨3, ⟨"x", -1500000000, true⟩⟩).2.2 =
      [.ack ⟨⟨"x", -1500000000, true⟩, 3, -1⟩] ∧
    specScheduledInFloor (-1500000000) 0 = -2 ∧
    (schedulerHandle ⟨true⟩ (.ok ()) 0 (schedulerInit Nat) ⟨4, ⟨"y", 5000000000, false⟩⟩).2.2 =
      [.ack ⟨⟨"y", 5000000000, false⟩, 4, 0⟩] ∧
    specScheduledInFloor 5000000000 0 = 5 := by
  decide

/-- C5 (amended): with EnableAckPort set, every Handle(in, m) emits exactly
one ack — before returning, whatever the ack handler's outcome — whose
scheduledIn is the difference dateTime - now in seconds truncated toward
zero when task.schedule is true, and 0 when task.schedule is false. -/
theorem scheduler_ack_emission (Ctx : Type) (s : SchedulerSettings) (ar : Except String Unit)
    (now : Int) (st : SchedulerState Ctx) (m : SchedulerInMessage Ctx)
    (hack : s.enableAckPort = true) :
    (schedulerHandle s ar now st m).2.2 =
      [.ack ⟨m.task, m.context,
        if m.task.schedule then goSecondsTrunc (m.task.dateTime - now) else 0⟩] := by
  cases ar <;> simp [schedulerHandle, hack]

/-- Witness for C5 (amended) at a concrete input: a task 2.5s in the future
is acknowledged with scheduledIn = 2. -/
theorem scheduler_ack_emission_witness :
    (schedulerHandle ⟨true⟩ (.ok ()) 0 (schedulerInit Nat) ⟨5, ⟨"z", 2500000000, true⟩⟩).2.2 =
      [.ack ⟨⟨"z", 2500000000, true⟩, 5, 2⟩] :=
  scheduler_ack_emission Nat ⟨true⟩ (.ok ()) 0 (schedulerInit Nat) ⟨5, ⟨"z", 2500000000, true⟩⟩ rfl

/-- C9: with EnableAckPort set, if the handler invocation for the ack
emission fails, Handle(in, m) returns that same error and the whole
scheduler state — in particular the pending task set and its timers — is
unchanged: no timer is created, reset, or removed for m.task.id. -/
theorem scheduler_ack_error_propagates (Ctx : Type) (s : SchedulerSettings) (e : String)
    (now : Int) (st : SchedulerState Ctx) (m : SchedulerInMessage Ctx)
    (hack : s.enableAckPort = true) :
    schedulerHandle s (.error e) now st m =
      (.error e, st,
        [.ack ⟨m.task, m.context,
          if m.task.schedule then goSecondsTrunc (m.task.dateTime - now) else 0⟩]) := by
  simp [schedulerHandle, hack]

/-- Witness for C9 at a concrete input: a failing ack handler leaves a
one-task state untouched and surfaces the error. -/
theorem scheduler_ack_error_propagates_witness :
    schedulerHandle ⟨true⟩ (.error "downstream closed") 0
        (⟨[("a", ⟨0, 5, ⟨"a", 5, true⟩, 9⟩)], 1⟩ : SchedulerState Nat)
        ⟨6, ⟨"a", 7000000000, true⟩⟩ =
      (.error "downstream closed", ⟨[("a", ⟨0, 5, ⟨"a", 5, true⟩, 9⟩)], 1⟩,
        [.ack ⟨⟨"a", 7000000000, true⟩, 6, 7⟩]) :=
  scheduler_ack_error_propagates Nat ⟨true⟩ "downstream closed" 0
    ⟨[("a", ⟨0, 5, ⟨"a", 5, true⟩, 9⟩)], 1⟩ ⟨6, ⟨"a", 7000000000, true⟩⟩ rfl

/- ════════════════════════════════════════════════════════════════════
   Router lemmas and claims
   ════════════════════════════════════════════════════════════════════ -/

theorem routerEmit_eq_find {Ctx : Type} (ctx : Ctx) (cs : List Condition) :
    routerEmit ctx cs = (cs.find? (fun c => c.condition)).map
      (fun c => (getPortNameFromRoute c.route, ⟨c.route, ctx⟩)) := by
  induction cs with
  | nil => rfl
  | cons c rest ih =>
    by_cases h : c.condition = true
    · rw [routerEmit, if_pos h, List.find?_cons_of_pos _ h]
      rfl
    · rw [routerEmit, if_neg h, List.find?_cons_of_neg _ h, ih]

theorem getPortNameFromRoute_data (r : String) :
    (getPortNameFromRoute r).data = 'o' :: 'u' :: 't' :: '_' :: (strToLower r).data := rfl

theorem getPortNameFromRoute_ne_settings (r : String) :
    getPortNameFromRoute r ≠ settingsPortName := by
  intro h
  have hd := congrArg String.data h
  rw [getPortNameFromRoute_data] at hd
  simp [settingsPortName] at hd

theorem getPortNameFromRoute_ne_input (r : String) :
    getPortNameFromRoute r ≠ routerInPortName := by
  intro h
  have hd := congrArg String.data h
  rw [getPortNameFromRoute_data] at hd
  simp [routerInPortName] at hd

theorem getPortNameFromRoute_ne_default (r : String) :
    getPortNameFromRoute r ≠ routerDefaultPortName := by
  intro h
  have hd := congrArg String.data h
  rw [getPortNameFromRoute_data] at hd
  simp [routerDefaultPortName] at hd

theorem getPortNameFromRoute_inj (a b : String)
    (h : getPortNameFromRoute a = getPortNameFromRoute b) : strToLower a = strToLower b := by
  have hd := congrArg String.data h
  rw [getPortNameFromRoute_data, getPortNameFromRoute_data] at hd
  exact String.ext (by simpa using hd)

theorem out_mem_routerPortNames (s : RouterSettings) (r : String) :
    getPortNameFromRoute r ∈ routerPortNames s ↔
      ∃ q ∈ s.routes, strToLower r = strToLower q := by
  unfold routerPortNames
  constructor
  · intro hmem
    rcases List.mem_append.mp hmem with hleft | hright
    · rcases List.mem_append.mp hleft with hres | hmap
      · rcases List.mem_cons.mp hres with h1 | h2
        · exact absurd h1 (getPortNameFromRoute_ne_settings r)
        · rcases List.mem_cons.mp h2 with h3 | h4
          · exact absurd h3 (getPortNameFromRoute_ne_input r)
          · simp at h4
      · rcases List.mem_map.mp hmap with ⟨q, hq, hqe⟩
        exact ⟨q, hq, (getPortNameFromRoute_inj q r hqe).symm⟩
    · by_cases hdef : s.enableDefaultPort = true
      · rw [if_pos hdef] at hright
        rcases List.mem_cons.mp hright with h1 | h2
        · exact absurd h1 (getPortNameFromRoute_ne_default r)
        · simp at h2
      · rw [if_neg hdef] at hright
        simp at hright
  · rintro ⟨q, hq, hlow⟩
    have : getPortNameFromRoute r = getPortNameFromRoute q := by
      unfold getPortNameFromRoute
      rw [hlow]
    refine List.mem_append.mpr (Or.inl (List.mem_append.mpr (Or.inr ?_)))
    exact List.mem_map.mpr ⟨q, hq, this.symm⟩

/-- C4: for every Router input message, Handle scans the conditions in the
given order; at the first with condition=true it emits exactly one message
carrying the input's context on `out_<lower(route)>` and stops, returning
the handler's outcome; with no true condition it emits once on `default`
when EnableDefaultPort is set, and emits nothing and returns success when
it is unset. -/
theorem router_first_true_condition (Ctx : Type)
    (hres : String → RouterOutMessage Ctx → Except String Unit)
    (s : RouterSettings) (m : RouterInMessage Ctx) :
    (∀ c, m.conditions.find? (fun c => c.condition) = some c →
      routerHandle hres s m =
        (hres (getPortNameFromRoute c.route) ⟨c.route, m.context⟩,
          [(getPortNameFromRoute c.route, ⟨c.route, m.context⟩)])) ∧
    (m.conditions.find? (fun c => c.condition) = none → s.enableDefaultPort = true →
      routerHandle hres s m =
        (hres routerDefaultPortName ⟨routerDefaultPortName, m.context⟩,
          [(routerDefaultPortName, ⟨routerDefaultPortName, m.context⟩)])) ∧
    (m.conditions.find? (fun c => c.condition) = none → s.enableDefaultPort = false →
      routerHandle hres s m = (.ok (), [])) := by
  refine ⟨?_, ?_, ?_⟩
  · intro c hc
    unfold routerHandle
    rw [routerEmit_eq_find, hc]
    rfl
  · intro hnone hdef
    unfold routerHandle
    rw [routerEmit_eq_find, hnone]
    simp [hdef]
  · intro hnone hdef
    unfold routerHandle
    rw [routerEmit_eq_find, hnone]
    simp [hdef]

/-- A trivially succeeding downstream handler, used in concrete router
evaluations. -/
def hresW : String → RouterOutMessage Nat → Except String Unit := fun _ _ => .ok ()

/-- Witness for C4 at the spec's S3 scenario: conditions
[(B, true), (A, true)] route the context to `out_b`. -/
theorem router_first_true_condition_witness :
    routerHandle hresW ⟨["A", "B"], true⟩ ⟨5, [⟨"B", true⟩, ⟨"A", true⟩]⟩ =
      (hresW (getPortNameFromRoute "B") ⟨"B", 5⟩, [(getPortNameFromRoute "B", ⟨"B", 5⟩)]) :=
  (router_first_true_condition Nat hresW ⟨["A", "B"], true⟩ ⟨5, [⟨"B", true⟩, ⟨"A", true⟩]⟩).1
    ⟨"B", true⟩ (by decide)

/-- C10 counterexample: the claim's gloss says the routed port name is
absent from the current Ports() surface whenever the route is not in
settings.Routes.  With routes = [a] and first true condition routing `A`,
the route `A` is not in settings.Routes yet Handle emits on `out_a`, which
IS among the port names Ports() returns (lower-casing makes them collide). -/
theorem router_unknown_route_port_counterexample :
    (routerHandle hresW ⟨["a"], false⟩ ⟨(0 : Nat), [⟨"A", true⟩]⟩).2 = [("out_a", ⟨"A", 0⟩)] ∧
    ("A" ∉ (["a"] : List String)) ∧
    "out_a" ∈ routerPortNames ⟨["a"], false⟩ := by
  decide

/-- C10 (amended): Handle does not validate route names against its
settings: whatever the settings, the first condition with condition=true
makes it invoke the handler on `out_<lower(route)>`, even when the route is
not in settings.Routes; and that port name is absent from the current
Ports() surface exactly when no configured route has the same lower-casing
as the routed one. -/
theorem router_no_route_validation (Ctx : Type)
    (hres : String → RouterOutMessage Ctx → Except String Unit)
    (s : RouterSettings) (m : RouterInMessage Ctx) (c : Condition)
    (hfind : m.conditions.find? (fun c => c.condition) = some c) :
    (routerHandle hres s m).2 = [(getPortNameFromRoute c.route, ⟨c.route, m.context⟩)] ∧
    (getPortNameFromRoute c.route ∈ routerPortNames s ↔
      ∃ q ∈ s.routes, strToLower c.route = strToLower q) := by
  constructor
  · rw [(router_first_true_condition Ctx hres s m).1 c hfind]
  · exact out_mem_routerPortNames s c.route

/-- Witness for C10 (amended) at a concrete input: route `C` with settings
routes [a, b] goes out on `out_c`, which is not among the Ports() names. -/
theorem router_no_route_validation_witness :
    (routerHandle hresW ⟨["a", "b"], true⟩ ⟨(1 : Nat), [⟨"C", true⟩]⟩).2 =
      [(getPortNameFromRoute "C", ⟨"C", 1⟩)] ∧
    (getPortNameFromRoute "C" ∈ routerPortNames ⟨["a", "b"], true⟩ ↔
      ∃ q ∈ (["a", "b"] : List String), strToLower "C" = strToLower q) :=
  router_no_route_validation Nat hresW ⟨["a", "b"], true⟩ ⟨1, [⟨"C", true⟩]⟩ ⟨"C", true⟩
    (by decide)

/- ════════════════════════════════════════════════════════════════════
   Mixer lemmas and claims
   ════════════════════════════════════════════════════════════════════ -/

theorem lookupMap_setMapEntry_self {Ctx : Type} (l : List (String × Ctx)) (k : String) (v : Ctx) :
    lookupMap (setMapEntry l k v) k = some v := by
  induction l with
  | nil => simp [setMapEntry, lookupMap]
  | cons p rest ih =>
    obtain ⟨k0, v0⟩ := p
    by_cases hk : k0 = k
    · simp [setMapEntry, lookupMap, hk]
    · simp [setMapEntry, lookupMap, hk, ih]

theorem lookupMap_setMapEntry_other {Ctx : Type} (l : List (String × Ctx)) (k k2 : String)
    (v : Ctx) (hne : k2 ≠ k) : lookupMap (setMapEntry l k v) k2 = lookupMap l k2 := by
  induction l with
  | nil =>
    simp only [setMapEntry, lookupMap]
    rw [if_neg (fun h => hne h.symm)]
  | cons p rest ih =>
    obtain ⟨k0, v0⟩ := p
    by_cases hk : k0 = k
    · subst hk
      simp only [setMapEntry, if_pos rfl, lookupMap]
      rw [if_neg (fun h => hne h.symm), if_neg (fun h => hne h.symm)]
    · simp [setMapEntry, lookupMap, hk, ih]

theorem mem_keys_setMapEntry {Ctx : Type} (l : List (String × Ctx)) (k k2 : String) (v : Ctx)
    (h : k2 ∈ (setMapEntry l k v).map Prod.fst) : k2 ∈ l.map Prod.fst ∨ k2 = k := by
  induction l with
  | nil => simpa [setMapEntry] using h
  | cons p rest ih =>
    obtain ⟨k0, v0⟩ := p
    by_cases hk : k0 = k
    · simp only [setMapEntry, if_pos hk, List.map_cons, List.mem_cons] at h ⊢
      tauto
    · simp only [setMapEntry, if_neg hk, List.map_cons, List.mem_cons] at h ⊢
      rcases h with h1 | h2
      · exact Or.inl (Or.inl h1)
      · tauto

theorem mixerHandle_inv {Ctx : Type} (st : MixerState Ctx) (port : String) (msg : MixerMsg Ctx)
    (h : MixerMapInv st) :
    MixerMapInv (match mixerHandle st port msg with | .ok (st2, _) => st2 | .error _ => st) := by
  unfold mixerHandle
  by_cases hport : port = settingsPortName
  · rw [if_pos hport]
    cases msg with
    | settings s => intro k hk; simp at hk
    | input c => exact h
  · rw [if_neg hport]
    by_cases hin : hasInput st.settings.inputs port = true
    · rw [if_pos hin]
      cases msg with
      | settings s => exact h
      | input c =>
        intro k hk
        rcases mem_keys_setMapEntry st.inputsMap (getPropName port) k c hk with hold | hnew
        · exact h k hold
        · exact ⟨port, hin, hnew⟩
    · rw [if_neg hin]
      cases msg with
      | settings s => exact h
      | input c => exact h

theorem mixerStep_inv {Ctx : Type} (st : MixerState Ctx) (op : MixerOp Ctx)
    (h : MixerMapInv st) : MixerMapInv (mixerStep st op) := by
  obtain ⟨port, msg⟩ := op
  exact mixerHandle_inv st port msg h

theorem mixerFold_inv {Ctx : Type} (ops : List (MixerOp Ctx)) (st : MixerState Ctx)
    (h : MixerMapInv st) : MixerMapInv (ops.foldl mixerStep st) := by
  induction ops generalizing st with
  | nil => exact h
  | cons op rest ih => exact ih _ (mixerStep_inv st op h)

theorem mixerRun_inv {Ctx : Type} (ops : List (MixerOp Ctx)) : MixerMapInv (mixerRun ops) := by
  refine mixerFold_inv ops _ ?_
  intro k hk
  simp [mixerInstanceState] at hk

/-- C6 counterexample: the claim says every Handle on a configured input
emits a record with one field per configured input.  A fresh Mixer is
configured with inputs [A, B]; the first Handle on port A emits a record
whose only field is contextA — the field contextB for the configured input
B is absent. -/
theorem mixer_missing_field_counterexample :
    mixerHandle (mixerInstanceState Nat) "A" (.input 7) =
      .ok (⟨⟨["A", "B"]⟩, [("contextA", 7)]⟩, some [("contextA", 7)]) ∧
    hasInput (mixerInstanceState Nat).settings.inputs "B" = true ∧
    "contextB" ∉ ([("contextA", (7 : Nat))].map Prod.fst) := by
  decide

/-- C6 (amended): every Handle on a configured input port (other than the
settings port) stores the message's context under key
`context<ToTitle(Name)>` and emits on `output` a record with one field per
configured input that has received at least one message since the last
settings change: the field of the port just handled carries the new
context, every other key is unchanged, and all keys come from configured
inputs. -/
theorem mixer_emits_inputs_seen (Ctx : Type) (ops : List (MixerOp Ctx)) (p : String) (v : Ctx) :
    MixerMapInv (mixerRun ops) ∧
    (p ≠ settingsPortName → hasInput (mixerRun ops).settings.inputs p = true →
      mixerHandle (mixerRun ops) p (.input v) =
        .ok ({ mixerRun ops with
                inputsMap := setMapEntry (mixerRun ops).inputsMap (getPropName p) v },
          some (setMapEntry (mixerRun ops).inputsMap (getPropName p) v)) ∧
      lookupMap (setMapEntry (mixerRun ops).inputsMap (getPropName p) v) (getPropName p) =
        some v ∧
      (∀ k, k ≠ getPropName p →
        lookupMap (setMapEntry (mixerRun ops).inputsMap (getPropName p) v) k =
          lookupMap (mixerRun ops).inputsMap k) ∧
      (∀ k ∈ (setMapEntry (mixerRun ops).inputsMap (getPropName p) v).map Prod.fst,
        ∃ i, hasInput (mixerRun ops).settings.inputs i = true ∧ k = getPropName i)) := by
  refine ⟨mixerRun_inv ops, fun hp hin => ⟨?_, ?_, ?_, ?_⟩⟩
  · unfold mixerHandle
    rw [if_neg hp, if_pos hin]
  · exact lookupMap_setMapEntry_self _ _ _
  · intro k hk
    exact lookupMap_setMapEntry_other _ _ _ _ hk
  · intro k hk
    rcases mem_keys_setMapEntry (mixerRun ops).inputsMap (getPropName p) k v hk with hold | hnew
    · exact mixerRun_inv ops k hold
    · exact ⟨p, hin, hnew⟩

/-- Witness for C6 (amended) at a concrete input: the first message on port
A of a fresh Mixer is stored and emitted under contextA. -/
theorem mixer_emits_inputs_seen_witness :
    mixerHandle (mixerRun ([] : List (MixerOp Nat))) "A" (.input 3) =
      .ok ({ mixerRun ([] : List (MixerOp Nat)) with
              inputsMap :=
                setMapEntry (mixerRun ([] : List (MixerOp Nat))).inputsMap (getPropName "A") 3 },
        some (setMapEntry (mixerRun ([] : List (MixerOp Nat))).inputsMap (getPropName "A") 3)) :=
  ((mixer_emits_inputs_seen Nat [] "A" 3).2 (by decide) (by decide)).1

/- ════════════════════════════════════════════════════════════════════
   HTTP Server claims
   ════════════════════════════════════════════════════════════════════ -/

/-- C3 counterexample: the claim says the pending entry is inserted with
expiry now + readTimeout and that after a read-timeout the id is gone.
With readTimeout 60 an entry inserted at instant 0 receives expiry 120
(the map was built with TTL readTimeout*2), not 60; and at instant 60 —
when the request ends by read-timeout, a path that performs no map
removal — the pending map still returns the entry. -/
theorem http_pending_expiry_counterexample :
    ttlFind (serverInsertPending (serverStartContexts Nat 60) 0 "req-1" 0).entries "req-1" =
      some (0, 120) ∧
    ((120 : Int) ≠ 0 + 60) ∧
    TTLMap.get (serverRequestTimeout (serverInsertPending (serverStartContexts Nat 60) 0 "req-1" 0))
      60 "req-1" = some 0 := by
  decide

/-- C3 (amended): for every inbound request the pending-map entry is
inserted with expiry now + 2*readTimeout (the TTL the server passes at
start is readTimeout*2), and after the request ends by read-timeout — a
path that performs no pending-map operation — the map still contains the
id at that instant; the entry disappears only when its TTL expires. -/
theorem http_pending_entry_expiry (V : Type) (rt now : Int) (id : String) (ch : V)
    (hrt : 0 < rt) :
    ttlFind (serverInsertPending (serverStartContexts V rt) now id ch).entries id =
      some (ch, now + rt * 2) ∧
    TTLMap.get (serverRequestTimeout (serverInsertPending (serverStartContexts V rt) now id ch))
      (now + rt) id = some ch := by
  constructor
  · simp [serverInsertPending, serverStartContexts, TTLMap.new, TTLMap.put, ttlSet, ttlFind]
  · unfold serverRequestTimeout serverInsertPending serverStartContexts
    simp only [TTLMap.new, TTLMap.put, ttlSet, TTLMap.get, ttlFind, if_pos rfl]
    show (if now + rt < now + rt * 2 then some ch else none) = some ch
    rw [if_pos (by omega)]

/-- Witness for C3 (amended) at a concrete input: readTimeout 60, request
inserted at instant 0, still pending at instant 60. -/
theorem http_pending_entry_expiry_witness :
    ttlFind (serverInsertPending (serverStartContexts Nat 60) 0 "req-9" 4).entries "req-9" =
      some (4, 0 + 60 * 2) ∧
    TTLMap.get (serverRequestTimeout (serverInsertPending (serverStartContexts Nat 60) 0 "req-9" 4))
      (0 + 60) "req-9" = some 4 :=
  http_pending_entry_expiry Nat 60 0 "req-9" 4 (by decide)

/-- C7: Handle on the response port fails with an error when the requestID
is absent from the pending map — whether the map was never created or the
entry expired or never existed — and when the requestID is present it
forwards the payload on that entry's channel and returns success. -/
theorem http_response_routing (V B : Type) (m : TTLMap V) (now : Int)
    (resp : ServerResponseMsg B) :
    (serverHandleResponse (none : Option (TTLMap V)) now resp =
      .error ("unknown request ID " ++ resp.requestID)) ∧
    (TTLMap.get m now resp.requestID = none →
      serverHandleResponse (some m) now resp =
        .error ("context '" ++ resp.requestID ++ "' not found")) ∧
    (∀ ch, TTLMap.get m now resp.requestID = some ch →
      serverHandleResponse (some m) now resp = .ok (ch, resp)) := by
  refine ⟨rfl, ?_, ?_⟩
  · intro h
    simp only [serverHandleResponse]
    rw [h]
  · intro ch h
    simp only [serverHandleResponse]
    rw [h]

/-- Witness for C7 at a concrete input: a live pending entry for id7
forwards the response payload on the stored channel. -/
theorem http_response_routing_witness :
    serverHandleResponse (some ((TTLMap.new Nat 120).put 0 "id7" 9)) 5
        (⟨"id7", 204, 0⟩ : ServerResponseMsg Nat) =
      .ok (9, ⟨"id7", 204, 0⟩) :=
  (http_response_routing Nat Nat ((TTLMap.new Nat 120).put 0 "id7" 9) 5 ⟨"id7", 204, 0⟩).2.2 9
    (by decide)

/-- C8: Handle on the stop port while the server is not running (no cancel
function installed) returns without error and leaves the server state
unchanged — still stopped. -/
theorem http_stop_idempotent (V : Type) (st : HServerState V)
    (h : st.cancelFuncSet = false) : serverHandleStop st = (st, none) := by
  unfold serverHandleStop serverStop
  rw [h]
  simp

/-- Witness for C8 at a concrete input: stopping a stopped server is a
no-op. -/
theorem http_stop_idempotent_witness :
    serverHandleStop (⟨false, false, none⟩ : HServerState Nat) = (⟨false, false, none⟩, none) :=
  http_stop_idempotent Nat ⟨false, false, none⟩ rfl

end TinySystems
